import Mathlib

/-!
Verification of the groth16-solana BN254 operation layer.

This file gives a shallow embedding of `src/errors.rs` and `src/bn254.rs`:

* `Groth16Error` embeds the Rust `Groth16Error` enum as compiled with the
  `circom` feature enabled, so the `ArkworksSerializationError` variant (which
  in Rust is behind `#[cfg(feature = "circom")]`) is present as a constructor.
* `groth16ErrorToU32` embeds `impl From<Groth16Error> for u32`; u32 values are
  represented as `Nat` (every code in the table is below `2^32`, so no
  wrap-around can occur).
* `groth16ErrorMessage` embeds the `thiserror` display strings attached to each
  variant under the `std` feature.
* The `alt_bn128_*` wrappers are embedded twice, following the two
  `cfg(target_os = "solana")` build paths in the source: the `..._solana`
  functions take an abstract provider (`Syscall`) as a parameter, so that
  "the wrapper does not invoke the provider" is expressible as independence of
  the result from the provider; the `..._nosol` functions embed the
  `cfg(not(target_os = "solana"))` path, which never calls a provider.
* `convert_endianness` is embedded with explicit bounds-checked writes into a
  pre-zeroed output buffer: `listSet`/`writeSeq` return `none` exactly when a
  Rust index `result[start + i]` would be out of bounds (a panic), and the
  model returns `none` for chunk size 0, where Rust's `slice::chunks` panics.
  Bytes are represented as `Nat`; only lengths and positions matter to the
  claims proved here.
-/

namespace Groth16

/-- Embeds the Rust enum `Groth16Error` from `src/errors.rs`, circom build:
the final constructor is behind `#[cfg(feature = "circom")]` in the source. -/
inductive Groth16Error where
  | IncompatibleVerifyingKeyWithNrPublicInputs
  | ProofVerificationFailed
  | PreparingInputsG1AdditionFailed
  | PreparingInputsG1MulFailed
  | InvalidG1Length
  | InvalidG2Length
  | InvalidPublicInputsLength
  | DecompressingG1Failed
  | DecompressingG2Failed
  | PublicInputGreaterThanFieldSize
  | ProofConversionError
  | ArkworksSerializationError
  deriving DecidableEq, Fintype

/-- Embeds `impl From<Groth16Error> for u32` from `src/errors.rs`. -/
def groth16ErrorToU32 : Groth16Error → Nat
  | .IncompatibleVerifyingKeyWithNrPublicInputs => 0
  | .ProofVerificationFailed => 1
  | .PreparingInputsG1AdditionFailed => 2
  | .PreparingInputsG1MulFailed => 3
  | .InvalidG1Length => 4
  | .InvalidG2Length => 5
  | .InvalidPublicInputsLength => 6
  | .DecompressingG1Failed => 7
  | .DecompressingG2Failed => 8
  | .PublicInputGreaterThanFieldSize => 9
  | .ProofConversionError => 10
  | .ArkworksSerializationError => 11

/-- Embeds the `thiserror` display strings of `src/errors.rs` (attached to each
variant by `#[cfg_attr(feature = "std", error("..."))]`). -/
def groth16ErrorMessage : Groth16Error → String
  | .IncompatibleVerifyingKeyWithNrPublicInputs =>
      "Incompatible Verifying Key with number of public inputs"
  | .ProofVerificationFailed => "ProofVerificationFailed"
  | .PreparingInputsG1AdditionFailed => "PreparingInputsG1AdditionFailed"
  | .PreparingInputsG1MulFailed => "PreparingInputsG1MulFailed"
  | .InvalidG1Length => "InvalidG1Length"
  | .InvalidG2Length => "InvalidG2Length"
  | .InvalidPublicInputsLength => "InvalidPublicInputsLength"
  | .DecompressingG1Failed => "DecompressingG1Failed"
  | .DecompressingG2Failed => "DecompressingG2Failed"
  | .PublicInputGreaterThanFieldSize => "PublicInputGreaterThanFieldSize"
  | .ProofConversionError => "Failed to convert proof component to byte array"
  | .ArkworksSerializationError => "Arkworks serialization error"

/-- Minimal model of the external `ark_serialize::SerializationError` enum (an
external crate, not part of this repository); the conversion in
`src/errors.rs` ignores its value entirely, so only the distinct kinds
matter. -/
inductive ArkSerializationError where
  | notEnoughSpace
  | invalidData
  | unexpectedFlags
  | ioError
  deriving DecidableEq

/-- Embeds `impl From<ark_serialize::SerializationError> for Groth16Error`
from `src/errors.rs` (circom feature): the source binds the error as `_e` and
returns `Groth16Error::ArkworksSerializationError` unconditionally. -/
def groth16ErrorFromArkSerialization (_ : ArkSerializationError) : Groth16Error :=
  .ArkworksSerializationError

/-- C1: the conversion from `Groth16Error` to u32 is an explicit, total,
injective mapping: the eleven always-present kinds map to the codes 0..10 as
listed, the mapping is defined on every kind (totality of
`groth16ErrorToU32`), and no two kinds share a code (injectivity, here proved
over the full circom-enabled enumeration, whose extra variant takes code 11). -/
theorem groth16ErrorToU32_stable_injective :
    groth16ErrorToU32 .IncompatibleVerifyingKeyWithNrPublicInputs = 0 ∧
    groth16ErrorToU32 .ProofVerificationFailed = 1 ∧
    groth16ErrorToU32 .PreparingInputsG1AdditionFailed = 2 ∧
    groth16ErrorToU32 .PreparingInputsG1MulFailed = 3 ∧
    groth16ErrorToU32 .InvalidG1Length = 4 ∧
    groth16ErrorToU32 .InvalidG2Length = 5 ∧
    groth16ErrorToU32 .InvalidPublicInputsLength = 6 ∧
    groth16ErrorToU32 .DecompressingG1Failed = 7 ∧
    groth16ErrorToU32 .DecompressingG2Failed = 8 ∧
    groth16ErrorToU32 .PublicInputGreaterThanFieldSize = 9 ∧
    groth16ErrorToU32 .ProofConversionError = 10 ∧
    ∀ e₁ e₂ : Groth16Error, groth16ErrorToU32 e₁ = groth16ErrorToU32 e₂ → e₁ = e₂ := by
  refine ⟨rfl, rfl, rfl, rfl, rfl, rfl, rfl, rfl, rfl, rfl, rfl, ?_⟩
  decide

/-- C1 witness: the injectivity conjunct applied at a concrete pair of equal
codes. -/
theorem groth16ErrorToU32_stable_injective_witness :
    Groth16Error.InvalidG1Length = Groth16Error.InvalidG1Length :=
  groth16ErrorToU32_stable_injective.2.2.2.2.2.2.2.2.2.2.2
    .InvalidG1Length .InvalidG1Length rfl

/-- C8: in the circom-enabled build the error enumeration contains the
serialization-error variant `ArkworksSerializationError`; its diagnostic
string is the fixed display message attached to the variant (the Rust variant
carries no payload: the string is its `thiserror` message, and the conversion
from the adapter's serialization errors discards the underlying error), and
every adapter serialization error converts to that variant. -/
theorem arkworksSerializationError_present :
    (∀ e : ArkSerializationError,
      groth16ErrorFromArkSerialization e = .ArkworksSerializationError) ∧
    groth16ErrorMessage .ArkworksSerializationError = "Arkworks serialization error" ∧
    groth16ErrorToU32 .ArkworksSerializationError = 11 := by
  exact ⟨fun _ => rfl, rfl, rfl⟩

/-- C8 witness: the conversion applied at the concrete adapter error
`invalidData`. -/
theorem arkworksSerializationError_present_witness :
    groth16ErrorFromArkSerialization .invalidData = .ArkworksSerializationError :=
  arkworksSerializationError_present.1 .invalidData

/-- Embeds the operation codes for `sol_alt_bn128_group_op` from
`src/bn254.rs`. -/
def ALT_BN128_G1_ADD : Nat := 0

/-- G1 scalar multiplication opcode for the group-op syscall. -/
def ALT_BN128_G1_MUL : Nat := 2

/-- Multi-pairing opcode for the group-op syscall. -/
def ALT_BN128_PAIRING : Nat := 3

/-- Embeds the operation codes for `sol_alt_bn128_compression` from
`src/bn254.rs`. -/
def ALT_BN128_G1_COMPRESS : Nat := 0

/-- G1 decompression opcode for the compression syscall. -/
def ALT_BN128_G1_DECOMPRESS : Nat := 1

/-- G2 compression opcode for the compression syscall. -/
def ALT_BN128_G2_COMPRESS : Nat := 2

/-- G2 decompression opcode for the compression syscall. -/
def ALT_BN128_G2_DECOMPRESS : Nat := 3

/-- Size constants from `src/bn254.rs`. -/
def ALT_BN128_ADDITION_INPUT_SIZE : Nat := 128

/-- Output size of G1 addition. -/
def ALT_BN128_ADDITION_OUTPUT_SIZE : Nat := 64

/-- Input size of G1 scalar multiplication. -/
def ALT_BN128_MULTIPLICATION_INPUT_SIZE : Nat := 96

/-- Output size of G1 scalar multiplication. -/
def ALT_BN128_MULTIPLICATION_OUTPUT_SIZE : Nat := 64

/-- Size of one pairing element (one G1 point plus one G2 point). -/
def ALT_BN128_PAIRING_ELEMENT_SIZE : Nat := 192

/-- Output size of the pairing operation. -/
def ALT_BN128_PAIRING_OUTPUT_SIZE : Nat := 32

/-- Size of an uncompressed G1 point. -/
def ALT_BN128_G1_POINT_SIZE : Nat := 64

/-- Size of a compressed G1 point. -/
def ALT_BN128_G1_COMPRESSED_SIZE : Nat := 32

/-- Size of an uncompressed G2 point. -/
def ALT_BN128_G2_POINT_SIZE : Nat := 128

/-- Size of a compressed G2 point. -/
def ALT_BN128_G2_COMPRESSED_SIZE : Nat := 64

/-- Abstract external operation provider, modelling the host syscalls
`sol_alt_bn128_group_op` and `sol_alt_bn128_compression` used under
`cfg(target_os = "solana")` in `src/bn254.rs`. Each takes the opcode, the
input buffer and the (pre-zeroed) output buffer, and returns the status code
together with the output buffer after the call; the wrappers treat status 0 as
success and anything else as failure. -/
structure Syscall where
  groupOp : Nat → List Nat → List Nat → Nat × List Nat
  compression : Nat → List Nat → List Nat → Nat × List Nat

/-- Embeds `alt_bn128_addition` from `src/bn254.rs` on the
`cfg(target_os = "solana")` path, with the provider passed explicitly. -/
def alt_bn128_addition_solana (s : Syscall) (input : List Nat) :
    Except Groth16Error (List Nat) :=
  if ALT_BN128_ADDITION_INPUT_SIZE < input.length then
    .error .PreparingInputsG1AdditionFailed
  else
    let result := List.replicate ALT_BN128_ADDITION_OUTPUT_SIZE 0
    let call := s.groupOp ALT_BN128_G1_ADD input result
    if call.1 ≠ 0 then .error .PreparingInputsG1AdditionFailed
    else .ok call.2

/-- Embeds `alt_bn128_addition` on the `cfg(not(target_os = "solana"))` path:
after the length check the source returns the error unconditionally. -/
def alt_bn128_addition_nosol (input : List Nat) : Except Groth16Error (List Nat) :=
  if ALT_BN128_ADDITION_INPUT_SIZE < input.length then
    .error .PreparingInputsG1AdditionFailed
  else
    .error .PreparingInputsG1AdditionFailed

/-- Embeds `alt_bn128_multiplication` from `src/bn254.rs` on the
`cfg(target_os = "solana")` path. -/
def alt_bn128_multiplication_solana (s : Syscall) (input : List Nat) :
    Except Groth16Error (List Nat) :=
  if ALT_BN128_MULTIPLICATION_INPUT_SIZE < input.length then
    .error .PreparingInputsG1MulFailed
  else
    let result := List.replicate ALT_BN128_MULTIPLICATION_OUTPUT_SIZE 0
    let call := s.groupOp ALT_BN128_G1_MUL input result
    if call.1 ≠ 0 then .error .PreparingInputsG1MulFailed
    else .ok call.2

/-- Embeds `alt_bn128_multiplication` on the non-solana path. -/
def alt_bn128_multiplication_nosol (input : List Nat) : Except Groth16Error (List Nat) :=
  if ALT_BN128_MULTIPLICATION_INPUT_SIZE < input.length then
    .error .PreparingInputsG1MulFailed
  else
    .error .PreparingInputsG1MulFailed

/-- Embeds `alt_bn128_pairing` from `src/bn254.rs` on the
`cfg(target_os = "solana")` path. -/
def alt_bn128_pairing_solana (s : Syscall) (input : List Nat) :
    Except Groth16Error (List Nat) :=
  if input.length % ALT_BN128_PAIRING_ELEMENT_SIZE ≠ 0 then
    .error .ProofVerificationFailed
  else
    let result := List.replicate ALT_BN128_PAIRING_OUTPUT_SIZE 0
    let call := s.groupOp ALT_BN128_PAIRING input result
    if call.1 ≠ 0 then .error .ProofVerificationFailed
    else .ok call.2

/-- Embeds `alt_bn128_pairing` on the non-solana path. -/
def alt_bn128_pairing_nosol (input : List Nat) : Except Groth16Error (List Nat) :=
  if input.length % ALT_BN128_PAIRING_ELEMENT_SIZE ≠ 0 then
    .error .ProofVerificationFailed
  else
    .error .ProofVerificationFailed

/-- Embeds `alt_bn128_g1_compress` on the solana path (the Rust input type
`&[u8; 64]` fixes the length at the type level, so there is no length check
in the body). -/
def alt_bn128_g1_compress_solana (s : Syscall) (point : List Nat) :
    Except Groth16Error (List Nat) :=
  let result := List.replicate ALT_BN128_G1_COMPRESSED_SIZE 0
  let call := s.compression ALT_BN128_G1_COMPRESS point result
  if call.1 ≠ 0 then .error .ProofConversionError else .ok call.2

/-- Embeds `alt_bn128_g1_compress` on the non-solana path. -/
def alt_bn128_g1_compress_nosol (_point : List Nat) : Except Groth16Error (List Nat) :=
  .error .ProofConversionError

/-- Embeds `alt_bn128_g1_decompress` on the solana path. -/
def alt_bn128_g1_decompress_solana (s : Syscall) (compressed : List Nat) :
    Except Groth16Error (List Nat) :=
  let result := List.replicate ALT_BN128_G1_POINT_SIZE 0
  let call := s.compression ALT_BN128_G1_DECOMPRESS compressed result
  if call.1 ≠ 0 then .error .DecompressingG1Failed else .ok call.2

/-- Embeds `alt_bn128_g1_decompress` on the non-solana path. -/
def alt_bn128_g1_decompress_nosol (_compressed : List Nat) :
    Except Groth16Error (List Nat) :=
  .error .DecompressingG1Failed

/-- Embeds `alt_bn128_g2_compress` on the solana path. -/
def alt_bn128_g2_compress_solana (s : Syscall) (point : List Nat) :
    Except Groth16Error (List Nat) :=
  let result := List.replicate ALT_BN128_G2_COMPRESSED_SIZE 0
  let call := s.compression ALT_BN128_G2_COMPRESS point result
  if call.1 ≠ 0 then .error .ProofConversionError else .ok call.2

/-- Embeds `alt_bn128_g2_compress` on the non-solana path. -/
def alt_bn128_g2_compress_nosol (_point : List Nat) : Except Groth16Error (List Nat) :=
  .error .ProofConversionError

/-- Embeds `alt_bn128_g2_decompress` on the solana path. -/
def alt_bn128_g2_decompress_solana (s : Syscall) (compressed : List Nat) :
    Except Groth16Error (List Nat) :=
  let result := List.replicate ALT_BN128_G2_POINT_SIZE 0
  let call := s.compression ALT_BN128_G2_DECOMPRESS compressed result
  if call.1 ≠ 0 then .error .DecompressingG2Failed else .ok call.2

/-- Embeds `alt_bn128_g2_decompress` on the non-solana path. -/
def alt_bn128_g2_decompress_nosol (_compressed : List Nat) :
    Except Groth16Error (List Nat) :=
  .error .DecompressingG2Failed

/-- Bounds-checked single write `result[i] = a`, modelling a Rust index
assignment: `none` means the index is out of bounds (a panic in Rust). -/
def listSet : List Nat → Nat → Nat → Option (List Nat)
  | [], _, _ => none
  | _ :: xs, 0, a => some (a :: xs)
  | x :: xs, n + 1, a => Option.map (fun ys => x :: ys) (listSet xs n a)

/-- Sequential bounds-checked writes of `ws` starting at index `start`,
modelling the inner loop of `convert_endianness`
(`for (i, &byte) in chunk.iter().rev().enumerate() { result[start + i] = byte }`,
here with the reversal applied by the caller). -/
def writeSeq : List Nat → Nat → List Nat → Option (List Nat)
  | res, _, [] => some res
  | res, start, b :: bs =>
    match listSet res start b with
    | none => none
    | some r => writeSeq r (start + 1) bs

/-- Fuelled chunking of a list into consecutive pieces of `c` elements,
modelling Rust's `slice::chunks(c)` (last chunk may be shorter); the fuel is
instantiated with the list length, which suffices for every positive `c`. -/
def chunksFuel : Nat → Nat → List Nat → List (List Nat)
  | _, 0, _ => []
  | _, _ + 1, [] => []
  | c, fuel + 1, x :: xs => (x :: xs).take c :: chunksFuel c fuel ((x :: xs).drop c)

/-- Chunking with the fuel fixed at the list length. -/
def chunksList (c : Nat) (l : List Nat) : List (List Nat) :=
  chunksFuel c l.length l

/-- Outer loop of `convert_endianness`: write each chunk, reversed, at offset
`idx * c` of the result buffer
(`for (chunk_idx, chunk) in bytes.chunks(CHUNK_SIZE).enumerate()` with
`start = chunk_idx * CHUNK_SIZE`). -/
def writeChunks : Nat → List Nat → Nat → List (List Nat) → Option (List Nat)
  | _, res, _, [] => some res
  | c, res, idx, ch :: rest =>
    match writeSeq res (idx * c) ch.reverse with
    | none => none
    | some r => writeChunks c r (idx + 1) rest

/-- Embeds `convert_endianness` from `src/bn254.rs`: allocate a zeroed output
buffer of the input's length, then reverse each `c`-byte chunk in place at its
own offset. `none` models a panic: Rust's `slice::chunks(0)` panics, as would
any out-of-bounds write. -/
def convert_endianness (c : Nat) (bytes : List Nat) : Option (List Nat) :=
  if c = 0 then none
  else writeChunks c (List.replicate bytes.length 0) 0 (chunksList c bytes)

/-- Well-shaped chunk lists: every chunk but the last has length exactly `c`
(the last may be shorter, as produced by `slice::chunks`). -/
inductive ChunksWF (c : Nat) : List (List Nat) → Prop
  | nil : ChunksWF c []
  | last (ch : List Nat) : ChunksWF c [ch]
  | cons (ch : List Nat) (rest : List (List Nat)) (hlen : ch.length = c)
      (hrest : ChunksWF c rest) : ChunksWF c (ch :: rest)

/-- Writing into the middle section of a buffer succeeds and replaces exactly
that section. -/
theorem listSet_middle (pre : List Nat) (x : Nat) (rest : List Nat) (b : Nat) :
    listSet (pre ++ x :: rest) pre.length b = some (pre ++ b :: rest) := by
  induction pre with
  | nil => rfl
  | cons p ps ih => simp [listSet, ih]

/-- Sequential writes over a section of matching length succeed and replace
exactly that section. -/
theorem writeSeq_middle (ws : List Nat) :
    ∀ pre mid suf : List Nat, mid.length = ws.length →
      writeSeq (pre ++ mid ++ suf) pre.length ws = some (pre ++ ws ++ suf) := by
  induction ws with
  | nil =>
    intro pre mid suf hlen
    have : mid = [] := List.eq_nil_of_length_eq_zero hlen
    simp [this, writeSeq]
  | cons b bs ih =>
    intro pre mid suf hlen
    match mid, hlen with
    | m :: ms, hlen =>
      have hlen' : ms.length = bs.length := by simpa using hlen
      have h1 : pre ++ (m :: ms) ++ suf = pre ++ m :: (ms ++ suf) := by simp
      have h2 : pre ++ (b :: bs) ++ suf = (pre ++ [b]) ++ bs ++ suf := by simp
      have hset := listSet_middle pre m (ms ++ suf) b
      have hstep := ih (pre ++ [b]) ms suf hlen'
      have hlen2 : (pre ++ [b]).length = pre.length + 1 := by simp
      have h3 : (pre ++ [b]) ++ ms ++ suf = pre ++ b :: (ms ++ suf) := by simp
      rw [h1, h2]
      simp only [writeSeq]
      rw [hset]
      rw [hlen2, h3] at hstep
      exact hstep

/-- Sum of the lengths of a list of chunks. -/
def sumLen (cs : List (List Nat)) : Nat := (cs.map List.length).sum

/-- Writing a well-shaped chunk list (each chunk reversed, at offset
`idx * c`) into the tail section of a buffer succeeds and yields the prefix
followed by the concatenation of the reversed chunks. -/
theorem writeChunks_middle (c : Nat) (cs : List (List Nat)) (hwf : ChunksWF c cs) :
    ∀ pre mid : List Nat, ∀ idx : Nat,
      pre.length = idx * c → mid.length = sumLen cs →
      writeChunks c (pre ++ mid) idx cs = some (pre ++ (cs.map List.reverse).flatten) := by
  induction hwf with
  | nil =>
    intro pre mid idx hpre hmid
    have hnil : mid = [] := List.eq_nil_of_length_eq_zero (by simpa [sumLen] using hmid)
    simp [hnil, writeChunks]
  | last ch =>
    intro pre mid idx hpre hmid
    have hmid' : mid.length = ch.reverse.length := by simpa [sumLen] using hmid
    have hws := writeSeq_middle ch.reverse pre mid [] hmid'
    simp only [List.append_nil] at hws
    simp only [writeChunks]
    rw [← hpre, hws]
    simp [writeChunks]
  | cons ch rest hlen hrest ih =>
    intro pre mid idx hpre hmid
    have hmidlen : mid.length = ch.length + sumLen rest := by simpa [sumLen] using hmid
    have hm1 : (mid.take ch.length).length = ch.reverse.length := by
      rw [List.length_take, List.length_reverse]
      omega
    have hm2 : (mid.drop ch.length).length = sumLen rest := by
      rw [List.length_drop]
      omega
    have hws := writeSeq_middle ch.reverse pre (mid.take ch.length) (mid.drop ch.length) hm1
    rw [List.append_assoc, List.take_append_drop] at hws
    simp only [writeChunks]
    rw [← hpre, hws]
    have hpre' : (pre ++ ch.reverse).length = (idx + 1) * c := by
      rw [List.length_append, List.length_reverse, hpre, hlen]
      ring
    have hstep := ih (pre ++ ch.reverse) (mid.drop ch.length) (idx + 1) hpre' hm2
    show writeChunks c ((pre ++ ch.reverse) ++ mid.drop ch.length) (idx + 1) rest = _
    rw [hstep]
    simp

/-- Chunking the empty list is empty, for any fuel. -/
theorem chunksFuel_nil (c : Nat) : ∀ fuel, chunksFuel c fuel [] = [] := by
  intro fuel
  cases fuel <;> rfl

/-- The fuel is irrelevant as long as it is at least the list length. -/
theorem chunksFuel_congr (c : Nat) (hc : 0 < c) :
    ∀ fuel₁ fuel₂ l, l.length ≤ fuel₁ → l.length ≤ fuel₂ →
      chunksFuel c fuel₁ l = chunksFuel c fuel₂ l := by
  intro fuel₁
  induction fuel₁ with
  | zero =>
    intro fuel₂ l h1 _
    have : l = [] := List.eq_nil_of_length_eq_zero (Nat.le_zero.mp h1)
    subst this
    rw [chunksFuel_nil, chunksFuel_nil]
  | succ f ih =>
    intro fuel₂ l h1 h2
    cases l with
    | nil => rw [chunksFuel_nil, chunksFuel_nil]
    | cons x xs =>
      cases fuel₂ with
      | zero => simp at h2
      | succ f₂ =>
        simp only [chunksFuel]
        congr 1
        have hx : (x :: xs).length = xs.length + 1 := rfl
        apply ih
        · rw [List.length_drop]
          omega
        · rw [List.length_drop]
          omega

/-- One-step unfolding of `chunksList` on a nonempty list, for positive chunk
size. -/
theorem chunksList_cons (c : Nat) (hc : 0 < c) (x : Nat) (xs : List Nat) :
    chunksList c (x :: xs) = (x :: xs).take c :: chunksList c ((x :: xs).drop c) := by
  unfold chunksList
  simp only [List.length_cons, chunksFuel]
  congr 1
  have hx : (x :: xs).length = xs.length + 1 := rfl
  apply chunksFuel_congr c hc
  · rw [List.length_drop]
    omega
  · exact le_rfl

/-- Concatenating the chunks gives back the original list. -/
theorem chunksList_flatten (c : Nat) (hc : 0 < c) :
    ∀ n l, l.length ≤ n → (chunksList c l).flatten = l := by
  intro n
  induction n with
  | zero =>
    intro l h
    have : l = [] := List.eq_nil_of_length_eq_zero (Nat.le_zero.mp h)
    subst this
    rfl
  | succ n ih =>
    intro l h
    cases l with
    | nil => rfl
    | cons x xs =>
      rw [chunksList_cons c hc, List.flatten_cons]
      have hx : (x :: xs).length = xs.length + 1 := rfl
      rw [ih ((x :: xs).drop c) (by rw [List.length_drop]; omega)]
      exact List.take_append_drop c (x :: xs)

/-- The chunk lengths of a list sum to the list's length. -/
theorem sumLen_chunksList (c : Nat) (hc : 0 < c) (l : List Nat) :
    sumLen (chunksList c l) = l.length := by
  unfold sumLen
  rw [← List.length_flatten, chunksList_flatten c hc l.length l le_rfl]

/-- The chunk list of any list is well-shaped. -/
theorem chunksList_wf (c : Nat) (hc : 0 < c) :
    ∀ n l, l.length ≤ n → ChunksWF c (chunksList c l) := by
  intro n
  induction n with
  | zero =>
    intro l h
    have : l = [] := List.eq_nil_of_length_eq_zero (Nat.le_zero.mp h)
    subst this
    exact ChunksWF.nil
  | succ n ih =>
    intro l h
    cases l with
    | nil => exact ChunksWF.nil
    | cons x xs =>
      rw [chunksList_cons c hc]
      have hx : (x :: xs).length = xs.length + 1 := rfl
      by_cases hle : (x :: xs).length ≤ c
      · have hdrop : (x :: xs).drop c = [] := List.drop_eq_nil_of_le hle
        rw [hdrop]
        exact ChunksWF.last _
      · push_neg at hle
        apply ChunksWF.cons
        · rw [List.length_take]
          omega
        · exact ih ((x :: xs).drop c) (by rw [List.length_drop]; omega)

/-- For positive chunk size `convert_endianness` never fails (every write is
in bounds) and produces exactly the concatenation of the reversed chunks,
each at its own offset: the trailing partial chunk, when the length is not a
multiple of the chunk size, is reversed in place at its own position. -/
theorem convert_endianness_eq (c : Nat) (hc : 0 < c) (bytes : List Nat) :
    convert_endianness c bytes = some ((chunksList c bytes).map List.reverse).flatten := by
  unfold convert_endianness
  rw [if_neg hc.ne']
  have h := writeChunks_middle c (chunksList c bytes)
    (chunksList_wf c hc bytes.length bytes le_rfl)
    [] (List.replicate bytes.length 0) 0 (by simp)
    (by rw [sumLen_chunksList c hc]; simp)
  simpa using h

/-- Every chunk of a list whose length the chunk size divides has length
exactly the chunk size. -/
theorem chunksList_length_of_dvd (c : Nat) (hc : 0 < c) :
    ∀ n l, l.length ≤ n → c ∣ l.length → ∀ ch ∈ chunksList c l, ch.length = c := by
  intro n
  induction n with
  | zero =>
    intro l h _ ch hch
    have : l = [] := List.eq_nil_of_length_eq_zero (Nat.le_zero.mp h)
    subst this
    exact absurd hch (List.not_mem_nil ch)
  | succ n ih =>
    intro l h hdvd ch hch
    cases l with
    | nil => exact absurd hch (List.not_mem_nil ch)
    | cons x xs =>
      rw [chunksList_cons c hc] at hch
      have hx : (x :: xs).length = xs.length + 1 := rfl
      have hge : c ≤ (x :: xs).length := Nat.le_of_dvd (by simp) hdvd
      rcases List.mem_cons.mp hch with hch | hch
      · rw [hch, List.length_take]
        omega
      · exact ih ((x :: xs).drop c)
          (by rw [List.length_drop]; omega)
          (by rw [List.length_drop]; exact Nat.dvd_sub' hdvd (dvd_refl c))
          ch hch

/-- Chunking a concatenation that starts with a block of exactly the chunk
size peels off that block. -/
theorem chunksList_append_block (c : Nat) (hc : 0 < c) (b rest : List Nat)
    (hb : b.length = c) :
    chunksList c (b ++ rest) = b :: chunksList c rest := by
  cases b with
  | nil =>
    simp at hb
    omega
  | cons y ys =>
    rw [List.cons_append, chunksList_cons c hc]
    congr 1
    · rw [← List.cons_append, ← hb]
      exact List.take_left _ _
    · congr 1
      rw [← List.cons_append, ← hb]
      exact List.drop_left _ _

/-- Chunking the concatenation of blocks of exactly the chunk size recovers
the blocks. -/
theorem chunksList_flatten_blocks (c : Nat) (hc : 0 < c) :
    ∀ blocks : List (List Nat), (∀ b ∈ blocks, b.length = c) →
      chunksList c blocks.flatten = blocks := by
  intro blocks
  induction blocks with
  | nil => intro _; rfl
  | cons b bs ih =>
    intro hall
    rw [List.flatten_cons, chunksList_append_block c hc b bs.flatten (hall b (by simp))]
    rw [ih (fun x hx => hall x (by simp [hx]))]

/-- C2 counterexample: the claim says every input whose length is not exactly
128 bytes is rejected by `alt_bn128_addition` before any provider call; but
the source only checks `input.len() > 128`, so the empty input (length 0, not
128) passes the pre-check, the provider is invoked, and with a provider that
returns status 0 the call succeeds instead of being rejected. -/
theorem alt_bn128_addition_empty_not_rejected :
    ([] : List Nat).length ≠ 128 ∧
    alt_bn128_addition_solana
        ⟨fun _ _ buf => (0, buf), fun _ _ buf => (0, buf)⟩ [] =
      .ok (List.replicate 64 0) := by
  exact ⟨by decide, rfl⟩

/-- C2 amended: the operation layer rejects over-long inputs before invoking
the provider: every input longer than 128 bytes to `alt_bn128_addition` fails
with `PreparingInputsG1AdditionFailed`, and every input longer than 96 bytes
to `alt_bn128_multiplication` fails with `PreparingInputsG1MulFailed`,
independently of the provider (so no provider call influences the result). -/
theorem addition_multiplication_length_guard (input : List Nat) :
    (128 < input.length → ∀ s : Syscall,
      alt_bn128_addition_solana s input = .error .PreparingInputsG1AdditionFailed) ∧
    (96 < input.length → ∀ s : Syscall,
      alt_bn128_multiplication_solana s input = .error .PreparingInputsG1MulFailed) := by
  constructor
  · intro h s
    simp [alt_bn128_addition_solana, ALT_BN128_ADDITION_INPUT_SIZE, h]
  · intro h s
    simp [alt_bn128_multiplication_solana, ALT_BN128_MULTIPLICATION_INPUT_SIZE, h]

/-- C2 amended witness: the guard theorem applied at the 129-byte zero input
with a provider that always reports success. -/
theorem addition_multiplication_length_guard_witness :
    alt_bn128_addition_solana ⟨fun _ _ buf => (0, buf), fun _ _ buf => (0, buf)⟩
        (List.replicate 129 0) = .error .PreparingInputsG1AdditionFailed ∧
    alt_bn128_multiplication_solana ⟨fun _ _ buf => (0, buf), fun _ _ buf => (0, buf)⟩
        (List.replicate 129 0) = .error .PreparingInputsG1MulFailed :=
  ⟨(addition_multiplication_length_guard (List.replicate 129 0)).1 (by simp) _,
   (addition_multiplication_length_guard (List.replicate 129 0)).2 (by simp) _⟩

/-- C3: every input whose length is not a multiple of 192 makes
`alt_bn128_pairing` fail with `ProofVerificationFailed` without invoking the
provider: on the solana path the result is the error for every provider, and
on the non-solana path likewise. -/
theorem pairing_length_guard (input : List Nat) (h : input.length % 192 ≠ 0) :
    (∀ s : Syscall,
      alt_bn128_pairing_solana s input = .error .ProofVerificationFailed) ∧
    alt_bn128_pairing_nosol input = .error .ProofVerificationFailed := by
  constructor
  · intro s
    simp [alt_bn128_pairing_solana, ALT_BN128_PAIRING_ELEMENT_SIZE, h]
  · simp [alt_bn128_pairing_nosol, ALT_BN128_PAIRING_ELEMENT_SIZE, h]

/-- C3 witness: the pairing length guard applied at the 1-byte input `[0]`
with a provider that always reports success. -/
theorem pairing_length_guard_witness :
    alt_bn128_pairing_solana ⟨fun _ _ buf => (0, buf), fun _ _ buf => (0, buf)⟩ [0] =
      .error .ProofVerificationFailed :=
  (pairing_length_guard [0] (by decide)).1 _

/-- C4: every input longer than 128 bytes makes `alt_bn128_addition` fail
with `PreparingInputsG1AdditionFailed` without invoking the provider: on the
solana path the result is the error for every provider, and on the non-solana
path likewise. -/
theorem addition_length_guard (input : List Nat) (h : 128 < input.length) :
    (∀ s : Syscall,
      alt_bn128_addition_solana s input = .error .PreparingInputsG1AdditionFailed) ∧
    alt_bn128_addition_nosol input = .error .PreparingInputsG1AdditionFailed := by
  constructor
  · intro s
    simp [alt_bn128_addition_solana, ALT_BN128_ADDITION_INPUT_SIZE, h]
  · simp [alt_bn128_addition_nosol, ALT_BN128_ADDITION_INPUT_SIZE, h]

/-- C4 witness: the addition length guard applied at the 129-byte zero input
with a provider that always reports success. -/
theorem addition_length_guard_witness :
    alt_bn128_addition_solana ⟨fun _ _ buf => (0, buf), fun _ _ buf => (0, buf)⟩
        (List.replicate 129 0) = .error .PreparingInputsG1AdditionFailed :=
  (addition_length_guard (List.replicate 129 0) (by simp)).1 _

/-- C7: on the build path without the external provider every operation
deterministically fails with its designated error for every input, never
returning a success: addition with `PreparingInputsG1AdditionFailed`,
multiplication with `PreparingInputsG1MulFailed`, pairing with
`ProofVerificationFailed`, G1/G2 compression with `ProofConversionError`, G1
decompression with `DecompressingG1Failed`, and G2 decompression with
`DecompressingG2Failed`. -/
theorem nosol_operations_always_fail (input : List Nat) :
    alt_bn128_addition_nosol input = .error .PreparingInputsG1AdditionFailed ∧
    alt_bn128_multiplication_nosol input = .error .PreparingInputsG1MulFailed ∧
    alt_bn128_pairing_nosol input = .error .ProofVerificationFailed ∧
    alt_bn128_g1_compress_nosol input = .error .ProofConversionError ∧
    alt_bn128_g2_compress_nosol input = .error .ProofConversionError ∧
    alt_bn128_g1_decompress_nosol input = .error .DecompressingG1Failed ∧
    alt_bn128_g2_decompress_nosol input = .error .DecompressingG2Failed := by
  refine ⟨?_, ?_, ?_, rfl, rfl, rfl, rfl⟩
  · unfold alt_bn128_addition_nosol
    split <;> rfl
  · unfold alt_bn128_multiplication_nosol
    split <;> rfl
  · unfold alt_bn128_pairing_nosol
    split <;> rfl

/-- C9: the pairing length check accepts the empty input (0 is a multiple of
192), so the empty buffer is never rejected as malformed: on the solana path
it is forwarded to the provider unchanged, and a provider success status
makes the wrapper return the provider's output. -/
theorem pairing_accepts_empty_input (s : Syscall) (out : List Nat)
    (h : s.groupOp ALT_BN128_PAIRING [] (List.replicate 32 0) = (0, out)) :
    alt_bn128_pairing_solana s [] = .ok out := by
  simp_all [alt_bn128_pairing_solana, ALT_BN128_PAIRING_ELEMENT_SIZE,
    ALT_BN128_PAIRING_OUTPUT_SIZE]

/-- C9 witness: the empty-input acceptance applied to a provider that always
reports success. -/
theorem pairing_accepts_empty_input_witness :
    alt_bn128_pairing_solana ⟨fun _ _ buf => (0, buf), fun _ _ buf => (0, buf)⟩ [] =
      .ok (List.replicate 32 0) :=
  pairing_accepts_empty_input
    ⟨fun _ _ buf => (0, buf), fun _ _ buf => (0, buf)⟩ (List.replicate 32 0) rfl

/-- C5: `convert_endianness` is self-inverse: for every byte list whose
length is an exact multiple of the (positive) chunk size, applying it twice
with the same chunk size restores the original list (both applications
succeed). -/
theorem convert_endianness_self_inverse (c : Nat) (bytes : List Nat)
    (hc : 0 < c) (hdvd : c ∣ bytes.length) :
    (convert_endianness c bytes).bind (convert_endianness c) = some bytes := by
  rw [convert_endianness_eq c hc bytes, Option.some_bind, convert_endianness_eq c hc]
  have hall : ∀ ch ∈ chunksList c bytes, ch.length = c :=
    chunksList_length_of_dvd c hc bytes.length bytes le_rfl hdvd
  have hrev : ∀ b ∈ (chunksList c bytes).map List.reverse, b.length = c := by
    intro b hb
    rcases List.mem_map.mp hb with ⟨ch, hch, rfl⟩
    rw [List.length_reverse]
    exact hall ch hch
  rw [chunksList_flatten_blocks c hc _ hrev]
  have hflat : (chunksList c bytes).flatten = bytes :=
    chunksList_flatten c hc bytes.length bytes le_rfl
  simp [List.map_map, Function.comp, List.reverse_reverse, hflat]

/-- C5 witness: the self-inverse theorem applied at chunk size 2 and the
4-byte input `[1, 2, 3, 4]`. -/
theorem convert_endianness_self_inverse_witness :
    (convert_endianness 2 [1, 2, 3, 4]).bind (convert_endianness 2) = some [1, 2, 3, 4] :=
  convert_endianness_self_inverse 2 [1, 2, 3, 4] (by decide) (by decide)

/-- C6: `convert_endianness` with chunk size 32 on the 64-byte input
`[1, 2, ..., 64]` yields `[32, 31, ..., 1, 64, 63, ..., 33]`: each 32-byte
chunk is reversed independently and the chunk order is preserved. -/
theorem convert_endianness_32_64 :
    convert_endianness 32 (List.range' 1 64) =
      some ((List.range' 1 32).reverse ++ (List.range' 33 32).reverse) := by
  decide

/-- C10: for every positive chunk size `convert_endianness` is total even
when the list length is not a multiple of the chunk size: no write is out of
bounds (the result is never `none`, the model's rendering of a panic) and the
output is the concatenation of the reversed chunks at their own offsets, the
trailing partial chunk included. -/
theorem convert_endianness_total (c : Nat) (bytes : List Nat) (hc : 0 < c) :
    convert_endianness c bytes = some ((chunksList c bytes).map List.reverse).flatten :=
  convert_endianness_eq c hc bytes

/-- C10 witness: totality applied at chunk size 2 and the 5-byte input
`[1, 2, 3, 4, 5]`, whose length is not a multiple of 2. -/
theorem convert_endianness_total_witness :
    convert_endianness 2 [1, 2, 3, 4, 5] =
      some ((chunksList 2 [1, 2, 3, 4, 5]).map List.reverse).flatten :=
  convert_endianness_total 2 [1, 2, 3, 4, 5] (by decide)

end Groth16
